import Mathlib

/-!
Verification of the process-manager core (scheduler.py and backend.py).

The scheduler (`CPUScheduler.schedule_processes` in scheduler.py) is embedded
as explicit state passing over an insertion-ordered association list that
models the Python dicts `process_arrival_times`, `process_priorities` and
`process_numbers`.  Python floats are modelled as exact rationals; `int(x)`
is truncation toward zero (`pyInt`), `round(x, 1)` is round-half-to-even at
one decimal (`pyRound1`).  Python's `sorted`, a stable sort, is modelled by
`List.insertionSort`, which is stable for the reflexive key relations used
here.  The snapshot provider (`list_processes` in backend.py) is embedded as
a pure function of an explicit cache state and a host-environment record that
carries the results of the host queries (psutil enumeration, the Win32
visible-window query, the tasklist fallback output after CSV parsing).
-/

/-- Python `int(x)` on an exact rational: truncation toward zero. -/
def pyInt (q : ℚ) : Int := if 0 ≤ q then ⌊q⌋ else -⌊-q⌋

/-- Python `round(x)` to the nearest integer, halves to the even neighbour. -/
def pyRoundInt (q : ℚ) : Int :=
  if q - ⌊q⌋ < 1/2 then ⌊q⌋
  else if 1/2 < q - ⌊q⌋ then ⌊q⌋ + 1
  else if ⌊q⌋ % 2 = 0 then ⌊q⌋ else ⌊q⌋ + 1

/-- Python `round(x, 1)`: one decimal digit, halves to even. -/
def pyRound1 (q : ℚ) : ℚ := (pyRoundInt (q * 10) : ℚ) / 10

/-- Lookup in an insertion-ordered association list (the view of a Python
dict keyed by pid). -/
def alookup {α : Type} (k : Nat) : List (Nat × α) → Option α
  | [] => none
  | kv :: rest => if kv.1 = k then some kv.2 else alookup k rest

/-- Update-or-append, the effect of a Python dict assignment `d[k] = v`. -/
def aset {α : Type} (k : Nat) (v : α) : List (Nat × α) → List (Nat × α)
  | [] => [(k, v)]
  | kv :: rest => if kv.1 = k then (k, v) :: rest else kv :: aset k v rest

/-- scheduler.py line 12: the closed enumeration of scheduling algorithms. -/
inductive SchedulingAlgorithm where
  | FCFS
  | SJF
  | PRIORITY
  | ROUND_ROBIN
  | MULTILEVEL_QUEUE
deriving DecidableEq, Repr

/-- One process record handed to the scheduler: a Python dict whose keys may
be absent.  Every read in scheduler.py is a defaulted `process.get` lookup,
so each field is optional here. -/
structure Proc where
  pid : Option Nat := none
  name : Option String := none
  exe : Option String := none
  cpu_percent : Option ℚ := none
  memory_mb : Option ℚ := none
  arrival_time : Option ℚ := none
  priority : Option Int := none
  process_number : Option Nat := none
deriving DecidableEq, Repr

/-- scheduler.py lines 23-32: the mutable state of `CPUScheduler`. -/
structure CPUScheduler where
  algorithm : SchedulingAlgorithm
  time_quantum : Nat
  current_time : Nat
  process_arrival_times : List (Nat × ℚ)
  process_priorities : List (Nat × Int)
  process_numbers : List (Nat × Nat)
  process_counter : Nat
  start_time : ℚ
deriving DecidableEq, Repr

/-- scheduler.py `CPUScheduler.__init__`: `time_quantum = 10`,
`current_time = 0`, empty tracking dicts, `process_counter = 0`,
`start_time = time.time()`. -/
def CPUScheduler.init (algorithm : SchedulingAlgorithm) (start_time : ℚ) : CPUScheduler :=
  { algorithm := algorithm
    time_quantum := 10
    current_time := 0
    process_arrival_times := []
    process_priorities := []
    process_numbers := []
    process_counter := 0
    start_time := start_time }

/-- scheduler.py lines 74-79 and 83-86 (the same formula in both branches):
`priority = min(100, max(1, int(cpu_percent * 2) + 50))`, then
`min(100, priority + 20)` when `cpu_percent > 10`. -/
def base_priority (cpu_percent : ℚ) : Int :=
  let priority := min 100 (max 1 (pyInt (cpu_percent * 2) + 50))
  if cpu_percent > 10 then min 100 (priority + 20) else priority

/-- scheduler.py lines 58-92: the body of the per-process loop in
`schedule_processes`.  First the arrival-time and process-number block
(lines 61-69), then the priority block (lines 72-88), then the dict writes
`process['arrival_time']` and `process['priority']` (lines 91-92). -/
def updateProc (s : CPUScheduler) (current_time : ℚ) (process : Proc) :
    CPUScheduler × Proc :=
  let pid := process.pid.getD 0
  let sp1 :=
    match alookup pid s.process_arrival_times with
    | none =>
        let counter := s.process_counter + 1
        ({ s with
            process_arrival_times :=
              aset pid (current_time - s.start_time) s.process_arrival_times
            process_counter := counter
            process_numbers := aset pid counter s.process_numbers },
         { process with process_number := some counter })
    | some _ =>
        (s, { process with
                process_number := some ((alookup pid s.process_numbers).getD s.process_counter) })
  let cpu_percent := process.cpu_percent.getD 0
  let s2 :=
    match alookup pid sp1.1.process_priorities with
    | none =>
        { sp1.1 with
            process_priorities := aset pid (base_priority cpu_percent) sp1.1.process_priorities }
    | some old =>
        { sp1.1 with
            process_priorities :=
              aset pid
                (pyInt ((old : ℚ) * (7/10) + (base_priority cpu_percent : ℚ) * (3/10)))
                sp1.1.process_priorities }
  (s2, { sp1.2 with
          arrival_time := alookup pid s2.process_arrival_times
          priority := alookup pid s2.process_priorities })

/-- The whole annotation loop of `schedule_processes` (scheduler.py lines
58-92), threading the scheduler state through the batch in order. -/
def updateAll (current_time : ℚ) : CPUScheduler → List Proc → CPUScheduler × List Proc
  | s, [] => (s, [])
  | s, process :: rest =>
      let sp := updateProc s current_time process
      let sr := updateAll current_time sp.1 rest
      (sr.1, sp.2 :: sr.2)

/-- scheduler.py lines 94-98: drop tracked state for every pid not in the
current batch. -/
def prune (s : CPUScheduler) (current_pids : List Nat) : CPUScheduler :=
  { s with
      process_arrival_times :=
        s.process_arrival_times.filter (fun kv => current_pids.contains kv.1)
      process_priorities :=
        s.process_priorities.filter (fun kv => current_pids.contains kv.1)
      process_numbers :=
        s.process_numbers.filter (fun kv => current_pids.contains kv.1) }

/-- scheduler.py `_fcfs`: stable sort ascending by `get('arrival_time', 0)`. -/
def _fcfs (processes : List Proc) : List Proc :=
  List.insertionSort (fun a b => a.arrival_time.getD 0 ≤ b.arrival_time.getD 0) processes

/-- scheduler.py `_sjf`: stable sort ascending by `get('cpu_percent', 0)`. -/
def _sjf (processes : List Proc) : List Proc :=
  List.insertionSort (fun a b => a.cpu_percent.getD 0 ≤ b.cpu_percent.getD 0) processes

/-- scheduler.py `_priority`: stable sort descending by `get('priority', 0)`. -/
def _priority (processes : List Proc) : List Proc :=
  List.insertionSort (fun a b => b.priority.getD 0 ≤ a.priority.getD 0) processes

/-- scheduler.py `_round_robin`: rotate by
`(current_time // time_quantum) % len(processes)` and then stable sort
descending by `get('cpu_percent', 0)`. -/
def _round_robin (current_time time_quantum : Nat) (processes : List Proc) : List Proc :=
  if processes.isEmpty then processes
  else
    let rotation := (current_time / time_quantum) % processes.length
    let rotated := processes.drop rotation ++ processes.take rotation
    List.insertionSort (fun a b => b.cpu_percent.getD 0 ≤ a.cpu_percent.getD 0) rotated

/-- scheduler.py `_multilevel_queue`: split at `cpu_percent > 5.0`, sort each
part descending by cpu, system part first. -/
def _multilevel_queue (processes : List Proc) : List Proc :=
  let system_queue := processes.filter (fun p => decide (p.cpu_percent.getD 0 > 5))
  let user_queue := processes.filter (fun p => decide (p.cpu_percent.getD 0 ≤ 5))
  List.insertionSort (fun a b => b.cpu_percent.getD 0 ≤ a.cpu_percent.getD 0) system_queue ++
    List.insertionSort (fun a b => b.cpu_percent.getD 0 ≤ a.cpu_percent.getD 0) user_queue

/-- scheduler.py lines 42-111, `schedule_processes`: early return on an empty
batch, otherwise annotate every record, prune state for vanished pids, and
dispatch on the configured algorithm. -/
def schedule_processes (s : CPUScheduler) (current_time : ℚ) (processes : List Proc) :
    CPUScheduler × List Proc :=
  if processes.isEmpty then (s, processes)
  else
    let sa := updateAll current_time s processes
    let current_pids := processes.map (fun p => p.pid.getD 0)
    let s2 := prune sa.1 current_pids
    let ordered :=
      match s2.algorithm with
      | SchedulingAlgorithm.FCFS => _fcfs sa.2
      | SchedulingAlgorithm.SJF => _sjf sa.2
      | SchedulingAlgorithm.PRIORITY => _priority sa.2
      | SchedulingAlgorithm.ROUND_ROBIN => _round_robin s2.current_time s2.time_quantum sa.2
      | SchedulingAlgorithm.MULTILEVEL_QUEUE => _multilevel_queue sa.2
    (s2, ordered)

/-- One entry of the host's process table as psutil reports it to
backend.py: `ok` is false when `p.as_dict` raises `NoSuchProcess` or
`AccessDenied` (line 113), the other fields are the values of
`info.get(...)` with `none` for a missing or `None` value. -/
structure HostProc where
  ok : Bool := true
  pid : Option Nat := none
  name : Option String := none
  exe : Option String := none
  rss_bytes : Option ℚ := none
  cpu_percent : Option ℚ := none
deriving DecidableEq, Repr

/-- One parsed CSV line of the `tasklist` output consumed by
`_get_processes_fallback` (backend.py lines 194-213): a line with fewer than
two fields or an unparsable pid has `pid = none`; an unparsable memory field
has `memK = none` (the code then uses `0.0`). -/
structure TasklistRow where
  name : String := ""
  pid : Option Nat := none
  memK : Option ℚ := none
deriving DecidableEq, Repr

/-- The host surface backend.py queries, with the success flags of each
query: psutil availability, `psutil.process_iter` success, the Win32
visible-window enumeration success, and the `tasklist` subprocess success. -/
structure HostEnv where
  is_windows : Bool := true
  psutil : Bool := true
  enum_ok : Bool := true
  winquery_ok : Bool := true
  visible_pids : List Nat := []
  host_procs : List HostProc := []
  tasklist_ok : Bool := true
  tasklist_rows : List TasklistRow := []
deriving DecidableEq, Repr

/-- One process record built by backend.py `list_processes`: the psutil path
sets the keys pid, name, exe, memory_mb, cpu_percent (lines 101-107); the
fallback path has no exe key (lines 214-219), hence the optional field. -/
structure BRec where
  pid : Nat
  name : String
  exe : Option String := none
  memory_mb : ℚ
  cpu_percent : ℚ
deriving DecidableEq, Repr

/-- backend.py `_get_visible_window_pids` (lines 138-177): empty on a
non-Windows host, empty when the Win32 query raises, otherwise the set of
pids owning a visible titled top-level window. -/
def _get_visible_window_pids (host : HostEnv) : List Nat :=
  if !host.is_windows then []
  else if host.winquery_ok then host.visible_pids else []

/-- backend.py lines 89-114: the psutil collection loop.  A record whose
`as_dict` raises is skipped; when `apps_only` was requested and a visible-pid
set was collected, a pid outside that set is skipped; otherwise a record is
appended, and the loop stops early once `max_count` (when nonzero, Python
truthiness) records are collected. -/
def psutilLoop (apps_only : Bool) (visible_app_pids : Option (List Nat)) (max_count : Nat) :
    List HostProc → List BRec → List BRec
  | [], procs => procs
  | hp :: rest, procs =>
    if hp.ok = false then psutilLoop apps_only visible_app_pids max_count rest procs
    else
      let pid := hp.pid.getD 0
      if apps_only && visible_app_pids.isSome && !((visible_app_pids.getD []).contains pid) then
        psutilLoop apps_only visible_app_pids max_count rest procs
      else
        let mem_mb := match hp.rss_bytes with
          | some rss => rss / (1024 * 1024)
          | none => 0
        let procs := procs ++ [{ pid := pid
                                 name := hp.name.getD ""
                                 exe := some (hp.exe.getD "")
                                 memory_mb := pyRound1 mem_mb
                                 cpu_percent := pyRound1 (hp.cpu_percent.getD 0) }]
        if max_count ≠ 0 && max_count ≤ procs.length then procs
        else psutilLoop apps_only visible_app_pids max_count rest procs

/-- backend.py line 117: stable sort descending by the key tuple
`(cpu_percent, memory_mb)`. -/
def sortByCpuMem (procs : List BRec) : List BRec :=
  List.insertionSort
    (fun a b =>
      b.cpu_percent < a.cpu_percent ∨ (b.cpu_percent = a.cpu_percent ∧ b.memory_mb ≤ a.memory_mb))
    procs

/-- backend.py `_get_processes_fallback` (lines 179-223): on Windows, parse
the `tasklist` CSV output (truncated to `max_count` lines when `max_count`
is truthy), skip rows without a parsable pid, apply the same visible-pid
filter, and build records with `cpu_percent = 0.0` and
`memory_mb = round(mem_k / 1024, 1)`.  Elsewhere, or when `tasklist`
raises, the result is empty. -/
def _get_processes_fallback (max_count : Nat) (apps_only : Bool) (host : HostEnv) : List BRec :=
  let visible_app_pids : Option (List Nat) :=
    if apps_only && host.is_windows then some (_get_visible_window_pids host) else none
  if host.is_windows then
    if host.tasklist_ok then
      let lines := if max_count ≠ 0 then host.tasklist_rows.take max_count else host.tasklist_rows
      lines.filterMap (fun row =>
        match row.pid with
        | none => none
        | some pid =>
          if apps_only && visible_app_pids.isSome && !((visible_app_pids.getD []).contains pid) then
            none
          else
            some { pid := pid
                   name := row.name
                   exe := none
                   memory_mb := pyRound1 ((row.memK.getD 0) / 1024)
                   cpu_percent := 0 })
    else []
  else []

/-- backend.py lines 69-124 with the caching peeled off: the acquisition a
cache miss runs.  The visible-pid set is collected only when `apps_only`
holds on Windows (lines 72-73); the psutil path sorts by (cpu, memory)
descending; a total enumeration failure, or absent psutil, falls back to
`_get_processes_fallback`. -/
def acquireProcs (host : HostEnv) (max_count : Nat) (apps_only : Bool) : List BRec :=
  let visible_app_pids : Option (List Nat) :=
    if apps_only && host.is_windows then some (_get_visible_window_pids host) else none
  if host.psutil then
    if host.enum_ok then
      sortByCpuMem (psutilLoop apps_only visible_app_pids max_count host.host_procs [])
    else _get_processes_fallback max_count apps_only host
  else _get_processes_fallback max_count apps_only host

/-- backend.py lines 126-132: what `_process_cache` stores. -/
structure ProcessCache where
  processes : List BRec
  max_count : Nat
  apps_only : Bool
deriving DecidableEq, Repr

/-- The module-level cache state of backend.py: `_process_cache` (initially
the empty dict, modelled as `none`) and `_cache_timestamp` (initially 0). -/
structure BackendState where
  process_cache : Option ProcessCache := none
  cache_timestamp : ℚ := 0
deriving DecidableEq, Repr

/-- backend.py line 18. -/
def CACHE_DURATION : ℚ := 1

/-- backend.py line 66: the cached result is returned when the previous
acquisition is younger than `CACHE_DURATION` and both stored parameters
equal the current ones; on the empty initial cache the `.get` comparisons
against `None` are false. -/
def cacheValid (st : BackendState) (current_time : ℚ) (max_count : Nat) (apps_only : Bool) :
    Bool :=
  decide (current_time - st.cache_timestamp < CACHE_DURATION) &&
    match st.process_cache with
    | some cache => (cache.max_count == max_count) && (cache.apps_only == apps_only)
    | none => false

/-- backend.py `list_processes` (lines 58-135): return the cached list on a
valid cache hit, otherwise acquire afresh and overwrite the cache with the
result, the call parameters and the call time. -/
def list_processes (st : BackendState) (current_time : ℚ) (max_count : Nat) (apps_only : Bool)
    (host : HostEnv) : BackendState × List BRec :=
  if cacheValid st current_time max_count apps_only then
    (st, (st.process_cache.map ProcessCache.processes).getD [])
  else
    let procs := acquireProcs host max_count apps_only
    ({ process_cache := some { processes := procs, max_count := max_count, apps_only := apps_only }
       cache_timestamp := current_time },
     procs)

/-- A store of process records indexed by identity: Python dict objects are
mutable, so record identity (which object a holder aliases) is modelled by an
index into this store. -/
abbrev Store := List Proc

/-- The record object a holder of index `i` observes. -/
def readRec (store : Store) (i : Nat) : Proc := store[i]?.getD {}

/-- In-place mutation of the record object at index `i`. -/
def writeRec (store : Store) (i : Nat) (p : Proc) : Store := store.set i p

/-- The annotation loop of `schedule_processes` at the object level: each
dict in the batch is read, annotated and written back in place (the Python
loop mutates `process` itself, scheduler.py lines 58-92). -/
def updateAllRefs (current_time : ℚ) :
    CPUScheduler → Store → List Nat → CPUScheduler × Store
  | s, store, [] => (s, store)
  | s, store, i :: rest =>
      let sp := updateProc s current_time (readRec store i)
      updateAllRefs current_time sp.1 (writeRec store i sp.2) rest

/-- The policy dispatch of `schedule_processes` at the object level: the
sorts build a new list of the same record objects, keyed by the records'
current field values. -/
def orderRefs (alg : SchedulingAlgorithm) (current_time time_quantum : Nat) (store : Store)
    (ids : List Nat) : List Nat :=
  match alg with
  | SchedulingAlgorithm.FCFS =>
      List.insertionSort
        (fun i j => (readRec store i).arrival_time.getD 0 ≤ (readRec store j).arrival_time.getD 0)
        ids
  | SchedulingAlgorithm.SJF =>
      List.insertionSort
        (fun i j => (readRec store i).cpu_percent.getD 0 ≤ (readRec store j).cpu_percent.getD 0)
        ids
  | SchedulingAlgorithm.PRIORITY =>
      List.insertionSort
        (fun i j => (readRec store j).priority.getD 0 ≤ (readRec store i).priority.getD 0)
        ids
  | SchedulingAlgorithm.ROUND_ROBIN =>
      if ids.isEmpty then ids
      else
        let rotation := (current_time / time_quantum) % ids.length
        List.insertionSort
          (fun i j => (readRec store j).cpu_percent.getD 0 ≤ (readRec store i).cpu_percent.getD 0)
          (ids.drop rotation ++ ids.take rotation)
  | SchedulingAlgorithm.MULTILEVEL_QUEUE =>
      let system_queue := ids.filter (fun i => decide ((readRec store i).cpu_percent.getD 0 > 5))
      let user_queue := ids.filter (fun i => decide ((readRec store i).cpu_percent.getD 0 ≤ 5))
      List.insertionSort
        (fun i j => (readRec store j).cpu_percent.getD 0 ≤ (readRec store i).cpu_percent.getD 0)
        system_queue ++
      List.insertionSort
        (fun i j => (readRec store j).cpu_percent.getD 0 ≤ (readRec store i).cpu_percent.getD 0)
        user_queue

/-- scheduler.py `schedule_processes` at the object level: the records of the
input batch are annotated in place and the returned batch is a new list of
exactly the same record objects. -/
def schedule_processes_refs (s : CPUScheduler) (current_time : ℚ) (store : Store)
    (ids : List Nat) : CPUScheduler × Store × List Nat :=
  if ids.isEmpty then (s, store, ids)
  else
    let sa := updateAllRefs current_time s store ids
    let current_pids := ids.map (fun i => (readRec sa.2 i).pid.getD 0)
    let s2 := prune sa.1 current_pids
    (s2, sa.2, orderRefs s2.algorithm s2.current_time s2.time_quantum sa.2 ids)

/-- The backend record as a fresh Python dict object the psutil or fallback
path builds (backend.py lines 101-107 and 214-219), viewed as a `Proc` so
the scheduler can later extend the same object with its own keys. -/
def toProc (r : BRec) : Proc :=
  { pid := some r.pid
    name := some r.name
    exe := r.exe
    memory_mb := some r.memory_mb
    cpu_percent := some r.cpu_percent }

/-- The backend cache at the object level: `_process_cache['processes']`
stores the list of record objects, not a copy. -/
structure ProcessCacheRefs where
  processes : List Nat
  max_count : Nat
  apps_only : Bool
deriving DecidableEq, Repr

/-- The module-level cache state of backend.py at the object level. -/
structure BackendRefsState where
  process_cache : Option ProcessCacheRefs := none
  cache_timestamp : ℚ := 0
deriving DecidableEq, Repr

/-- backend.py line 66 at the object level (same condition as `cacheValid`). -/
def cacheValidRefs (st : BackendRefsState) (current_time : ℚ) (max_count : Nat)
    (apps_only : Bool) : Bool :=
  decide (current_time - st.cache_timestamp < CACHE_DURATION) &&
    match st.process_cache with
    | some cache => (cache.max_count == max_count) && (cache.apps_only == apps_only)
    | none => false

/-- backend.py `list_processes` at the object level: a cache hit returns the
stored list of record objects itself (line 67); a miss allocates fresh
record objects for the acquired data, stores that very list in the cache and
returns it. -/
def list_processes_refs (st : BackendRefsState) (store : Store) (current_time : ℚ)
    (max_count : Nat) (apps_only : Bool) (host : HostEnv) :
    BackendRefsState × Store × List Nat :=
  if cacheValidRefs st current_time max_count apps_only then
    (st, store, (st.process_cache.map ProcessCacheRefs.processes).getD [])
  else
    let procs := (acquireProcs host max_count apps_only).map toProc
    let ids := (List.range procs.length).map (fun n => n + store.length)
    ({ process_cache := some { processes := ids, max_count := max_count, apps_only := apps_only }
       cache_timestamp := current_time },
     store ++ procs, ids)

/-- The fields of a record that `schedule_processes` never writes: the
annotation loop only sets `process_number`, `arrival_time` and `priority`. -/
def coreFields (p : Proc) : Option Nat × Option String × Option String × Option ℚ × Option ℚ :=
  (p.pid, p.name, p.exe, p.cpu_percent, p.memory_mb)

lemma updateProc_snd_core (s : CPUScheduler) (t : ℚ) (p : Proc) :
    coreFields (updateProc s t p).2 = coreFields p := by
  unfold updateProc
  dsimp only
  split <;> dsimp only <;> split <;> rfl

lemma updateAll_snd_core (t : ℚ) (ps : List Proc) :
    ∀ s : CPUScheduler, ((updateAll t s ps).2).map coreFields = ps.map coreFields := by
  induction ps with
  | nil => intro s; rfl
  | cons p rest ih =>
      intro s
      simp only [updateAll, List.map_cons]
      rw [updateProc_snd_core, ih]

lemma perm_drop_take {α : Type} (n : Nat) (l : List α) : List.Perm (l.drop n ++ l.take n) l :=
  List.perm_append_comm.trans (by rw [List.take_append_drop])

lemma perm_fcfs (ps : List Proc) : List.Perm (_fcfs ps) ps :=
  List.perm_insertionSort _ ps

lemma perm_sjf (ps : List Proc) : List.Perm (_sjf ps) ps :=
  List.perm_insertionSort _ ps

lemma perm_priority_sort (ps : List Proc) : List.Perm (_priority ps) ps :=
  List.perm_insertionSort _ ps

lemma perm_round_robin (ct q : Nat) (ps : List Proc) : List.Perm (_round_robin ct q ps) ps := by
  unfold _round_robin
  by_cases h : ps.isEmpty
  · simp [h]
  · simp only [h, Bool.false_eq_true, if_false]
    exact (List.perm_insertionSort _ _).trans (perm_drop_take _ _)

lemma perm_multilevel (ps : List Proc) : List.Perm (_multilevel_queue ps) ps := by
  unfold _multilevel_queue
  have hcompl : (fun p : Proc => decide (p.cpu_percent.getD 0 ≤ 5)) =
      (fun p : Proc => !(decide (p.cpu_percent.getD 0 > 5))) := by
    funext p
    rw [← decide_not]
    exact decide_eq_decide.mpr not_lt.symm
  have hfilter :
      List.Perm
        (ps.filter (fun p => decide (p.cpu_percent.getD 0 > 5)) ++
          ps.filter (fun p => decide (p.cpu_percent.getD 0 ≤ 5))) ps := by
    rw [hcompl]
    exact List.filter_append_perm _ ps
  exact (List.Perm.append (List.perm_insertionSort _ _) (List.perm_insertionSort _ _)).trans hfilter

lemma schedule_processes_perm (s : CPUScheduler) (t : ℚ) (ps : List Proc) :
    List.Perm ((schedule_processes s t ps).2) ((updateAll t s ps).2) := by
  unfold schedule_processes
  by_cases h : ps.isEmpty
  · have : ps = [] := List.isEmpty_iff.mp h
    subst this
    simp [updateAll]
  · simp only [h, Bool.false_eq_true, if_false]
    cases (prune (updateAll t s ps).1 (ps.map (fun p => p.pid.getD 0))).algorithm
    · exact perm_fcfs _
    · exact perm_sjf _
    · exact perm_priority_sort _
    · exact perm_round_robin _ _ _
    · exact perm_multilevel _

/-- C1: for every scheduler state (hence for each of the five policies) and
every batch B, `schedule_processes` returns a permutation of B — the records
are only annotated, never added, dropped or duplicated, as witnessed by the
untouched fields — and the empty batch yields the empty batch for every
policy, with the state unchanged. -/
theorem schedule_processes_is_permutation :
    (∀ (s : CPUScheduler) (t : ℚ) (ps : List Proc),
        List.Perm (((schedule_processes s t ps).2).map coreFields) (ps.map coreFields))
    ∧ ∀ (s : CPUScheduler) (t : ℚ), schedule_processes s t [] = (s, []) := by
  constructor
  · intro s t ps
    have h1 := (schedule_processes_perm s t ps).map coreFields
    rwa [updateAll_snd_core] at h1
  · intro s t
    rfl

lemma updateProc_fst_config (s : CPUScheduler) (t : ℚ) (p : Proc) :
    (updateProc s t p).1.algorithm = s.algorithm ∧
    (updateProc s t p).1.time_quantum = s.time_quantum ∧
    (updateProc s t p).1.current_time = s.current_time ∧
    (updateProc s t p).1.start_time = s.start_time ∧
    s.process_counter ≤ (updateProc s t p).1.process_counter := by
  unfold updateProc
  dsimp only
  split <;> dsimp only <;> split <;> exact ⟨rfl, rfl, rfl, rfl, by dsimp only; omega⟩

lemma updateAll_fst_config (t : ℚ) (ps : List Proc) :
    ∀ s : CPUScheduler,
      (updateAll t s ps).1.algorithm = s.algorithm ∧
      (updateAll t s ps).1.time_quantum = s.time_quantum ∧
      (updateAll t s ps).1.current_time = s.current_time ∧
      (updateAll t s ps).1.start_time = s.start_time ∧
      s.process_counter ≤ (updateAll t s ps).1.process_counter := by
  induction ps with
  | nil => intro s; exact ⟨rfl, rfl, rfl, rfl, le_refl _⟩
  | cons p rest ih =>
      intro s
      simp only [updateAll]
      obtain ⟨h1, h2, h3, h4, h5⟩ := updateProc_fst_config s t p
      obtain ⟨g1, g2, g3, g4, g5⟩ := ih (updateProc s t p).1
      exact ⟨g1.trans h1, g2.trans h2, g3.trans h3, g4.trans h4, h5.trans g5⟩

lemma schedule_processes_fst_config (s : CPUScheduler) (t : ℚ) (ps : List Proc) :
    (schedule_processes s t ps).1.algorithm = s.algorithm ∧
    (schedule_processes s t ps).1.time_quantum = s.time_quantum ∧
    (schedule_processes s t ps).1.current_time = s.current_time ∧
    (schedule_processes s t ps).1.start_time = s.start_time ∧
    s.process_counter ≤ (schedule_processes s t ps).1.process_counter := by
  unfold schedule_processes
  by_cases h : ps.isEmpty
  · rw [if_pos h]
    exact ⟨rfl, rfl, rfl, rfl, le_refl _⟩
  · rw [if_neg (by simp [h])]
    exact updateAll_fst_config t ps s

/-- C2 is refuted by the code: `CPUScheduler.current_time` is set to 0 at
construction and never written again — `schedule_processes` leaves it (and
`time_quantum`) unchanged on every call — so the round-robin rotation
`(current_time // time_quantum) % len` is computed from the constant 0, not
from a monotonic clock, and `_round_robin` collapses to the plain descending
cpu sort with rotation offset 0 on every call, whatever the elapsed time. -/
theorem round_robin_ignores_elapsed_time :
    (∀ (s : CPUScheduler) (t : ℚ) (ps : List Proc),
        (schedule_processes s t ps).1.current_time = s.current_time ∧
        (schedule_processes s t ps).1.time_quantum = s.time_quantum)
    ∧ (∀ (a : SchedulingAlgorithm) (st : ℚ),
        (CPUScheduler.init a st).current_time = 0 ∧ (CPUScheduler.init a st).time_quantum = 10)
    ∧ ∀ ps : List Proc,
        _round_robin 0 10 ps =
          List.insertionSort (fun a b => b.cpu_percent.getD 0 ≤ a.cpu_percent.getD 0) ps := by
  refine ⟨fun s t ps => ⟨(schedule_processes_fst_config s t ps).2.2.1,
    (schedule_processes_fst_config s t ps).2.1⟩, fun a st => ⟨rfl, rfl⟩, fun ps => ?_⟩
  unfold _round_robin
  by_cases h : ps.isEmpty
  · have : ps = [] := List.isEmpty_iff.mp h
    subst this
    rfl
  · simp [h]

lemma alookup_mem {α : Type} {k : Nat} {v : α} : ∀ {l : List (Nat × α)},
    alookup k l = some v → (k, v) ∈ l := by
  intro l
  induction l with
  | nil => intro h; simp [alookup] at h
  | cons kv rest ih =>
      intro h
      obtain ⟨k1, v1⟩ := kv
      unfold alookup at h
      dsimp only at h
      by_cases hk : k1 = k
      · rw [if_pos hk] at h
        subst hk
        injection h with h2
        subst h2
        exact List.mem_cons_self _ _
      · rw [if_neg hk] at h
        exact List.mem_cons_of_mem _ (ih h)

lemma mem_aset {α : Type} {kv' : Nat × α} {k : Nat} {v : α} : ∀ {l : List (Nat × α)},
    kv' ∈ aset k v l → kv' = (k, v) ∨ kv' ∈ l := by
  intro l
  induction l with
  | nil => intro h; simp [aset] at h; exact Or.inl h
  | cons kv rest ih =>
      intro h
      unfold aset at h
      by_cases hk : kv.1 = k
      · rw [if_pos hk] at h
        rcases List.mem_cons.mp h with h1 | h1
        · exact Or.inl h1
        · exact Or.inr (List.mem_cons_of_mem _ h1)
      · rw [if_neg hk] at h
        rcases List.mem_cons.mp h with h1 | h1
        · exact Or.inr (h1 ▸ List.mem_cons_self _ _)
        · rcases ih h1 with h2 | h2
          · exact Or.inl h2
          · exact Or.inr (List.mem_cons_of_mem _ h2)

lemma base_priority_bounds (c : ℚ) : 1 ≤ base_priority c ∧ base_priority c ≤ 100 := by
  unfold base_priority
  dsimp only
  split <;> omega

lemma pyInt_blend_bounds {old : Int} (h1 : 1 ≤ old) (h2 : old ≤ 100) (c : ℚ) :
    1 ≤ pyInt ((old : ℚ) * (7/10) + (base_priority c : ℚ) * (3/10)) ∧
    pyInt ((old : ℚ) * (7/10) + (base_priority c : ℚ) * (3/10)) ≤ 100 := by
  obtain ⟨b1, b2⟩ := base_priority_bounds c
  have c1 : (1 : ℚ) ≤ (old : ℚ) := by exact_mod_cast h1
  have c2 : ((old : ℚ)) ≤ 100 := by exact_mod_cast h2
  have c3 : (1 : ℚ) ≤ ((base_priority c : Int) : ℚ) := by exact_mod_cast b1
  have c4 : (((base_priority c : Int)) : ℚ) ≤ 100 := by exact_mod_cast b2
  have hq1 : (1 : ℚ) ≤ (old : ℚ) * (7/10) + ((base_priority c : Int) : ℚ) * (3/10) := by
    linarith
  have hq2 : (old : ℚ) * (7/10) + ((base_priority c : Int) : ℚ) * (3/10) ≤ 100 := by
    linarith
  rw [pyInt, if_pos (le_trans zero_le_one hq1)]
  constructor
  · exact Int.le_floor.mpr (by exact_mod_cast hq1)
  · rw [Int.floor_le_iff]
    push_cast
    linarith

/-- The data-model invariant on the priority-tracking dict: every stored
priority lies in the interval from 1 to 100. -/
def priInv (s : CPUScheduler) : Prop :=
  ∀ kv ∈ s.process_priorities, 1 ≤ kv.2 ∧ kv.2 ≤ 100

lemma updateProc_priInv {s : CPUScheduler} (t : ℚ) (p : Proc) (h : priInv s) :
    priInv (updateProc s t p).1 := by
  have hset : ∀ w : Int, (1 ≤ w ∧ w ≤ 100) →
      ∀ kv ∈ aset (p.pid.getD 0) w s.process_priorities, 1 ≤ kv.2 ∧ kv.2 ≤ 100 := by
    intro w hw kv hkv
    rcases mem_aset hkv with rfl | h2
    · exact hw
    · exact h _ h2
  unfold updateProc
  dsimp only
  rcases harr : alookup (p.pid.getD 0) s.process_arrival_times with _ | aval <;>
    simp only [harr] <;>
    rcases hpri : alookup (p.pid.getD 0) s.process_priorities with _ | old <;>
    simp only [hpri] <;>
    intro kv hkv <;> (try dsimp only at hkv) <;>
    refine hset _ ?_ _ hkv
  · exact base_priority_bounds _
  · exact pyInt_blend_bounds (h _ (alookup_mem hpri)).1 (h _ (alookup_mem hpri)).2 _
  · exact base_priority_bounds _
  · exact pyInt_blend_bounds (h _ (alookup_mem hpri)).1 (h _ (alookup_mem hpri)).2 _

lemma updateAll_priInv (t : ℚ) (ps : List Proc) :
    ∀ s : CPUScheduler, priInv s → priInv (updateAll t s ps).1 := by
  induction ps with
  | nil => intro s h; exact h
  | cons p rest ih =>
      intro s h
      simp only [updateAll]
      exact ih _ (updateProc_priInv t p h)

lemma prune_priInv {s : CPUScheduler} (pids : List Nat) (h : priInv s) :
    priInv (prune s pids) := by
  intro kv hkv
  exact h _ (List.mem_of_mem_filter hkv)

lemma schedule_processes_priInv {s : CPUScheduler} (t : ℚ) (ps : List Proc) (h : priInv s) :
    priInv (schedule_processes s t ps).1 := by
  unfold schedule_processes
  by_cases he : ps.isEmpty
  · rw [if_pos he]; exact h
  · rw [if_neg (by simp [he])]
    exact prune_priInv _ (updateAll_priInv t ps s h)

/-- C6: the tracked priority of every pid stays in the interval from 1 to
100 across every sequence of `schedule_processes` calls: the freshly
constructed scheduler satisfies the invariant, every call preserves it (for
arbitrary batches, hence for arbitrary non-negative cpu samples), and under
the invariant every lookup of a tracked priority is within bounds — both the
seed value and every blended value. -/
theorem tracked_priorities_stay_in_range :
    (∀ (a : SchedulingAlgorithm) (st : ℚ), priInv (CPUScheduler.init a st))
    ∧ (∀ (s : CPUScheduler) (t : ℚ) (ps : List Proc),
        priInv s → priInv (schedule_processes s t ps).1)
    ∧ ∀ (s : CPUScheduler) (k : Nat) (v : Int),
        priInv s → alookup k s.process_priorities = some v → 1 ≤ v ∧ v ≤ 100 := by
  refine ⟨fun a st => ?_, fun s t ps h => schedule_processes_priInv t ps h,
    fun s k v h hl => h _ (alookup_mem hl)⟩
  intro kv hkv
  simp [CPUScheduler.init] at hkv

lemma alookup_aset_self {α : Type} (k : Nat) (v : α) : ∀ l : List (Nat × α),
    alookup k (aset k v l) = some v := by
  intro l
  induction l with
  | nil => simp [aset, alookup]
  | cons kv rest ih =>
      unfold aset
      by_cases h : kv.1 = k
      · rw [if_pos h]
        simp [alookup]
      · rw [if_neg h]
        unfold alookup
        rw [if_neg h]
        exact ih

lemma updateProc_blend {s : CPUScheduler} {p : Proc} {pid : Nat} {old : Int} (t : ℚ)
    (hpid : p.pid.getD 0 = pid)
    (hpri : alookup pid s.process_priorities = some old) :
    alookup pid (updateProc s t p).1.process_priorities =
      some (pyInt ((old : ℚ) * (7/10) +
        (base_priority (p.cpu_percent.getD 0) : ℚ) * (3/10))) := by
  unfold updateProc
  dsimp only
  subst hpid
  rcases harr : alookup (p.pid.getD 0) s.process_arrival_times with _ | aval <;>
    simp only [harr, hpri] <;>
    exact alookup_aset_self _ _ _

/-- C5 amended: for a pid already tracked, an update recomputes the base
priority from the current sample with Python `int` truncation — the stored
value is `int(0.7*oldPriority + 0.3*newBase)`, truncation rather than
rounding, where newBase is `min(100, max(1, int(cpu*2)+50))` plus the capped
`+20` bonus when `cpu > 10`; the claim's concrete scenario still holds: with
prior priority 50 and a new sample of cpu 50 the new priority is 65. -/
theorem known_pid_priority_blend :
    (∀ (s : CPUScheduler) (t : ℚ) (p : Proc) (pid : Nat) (old : Int),
        p.pid.getD 0 = pid → alookup pid s.process_priorities = some old →
        alookup pid (updateProc s t p).1.process_priorities =
          some (pyInt ((old : ℚ) * (7/10) +
            (base_priority (p.cpu_percent.getD 0) : ℚ) * (3/10))))
    ∧ ((schedule_processes
        { CPUScheduler.init SchedulingAlgorithm.FCFS 0 with
            process_arrival_times := [(1, 0)]
            process_priorities := [(1, 50)]
            process_numbers := [(1, 1)]
            process_counter := 1 }
        1 [{ pid := some 1, cpu_percent := some 50 }]).2.map Proc.priority) = [some 65] := by
  constructor
  · intro s t p pid old hpid hpri
    exact updateProc_blend t hpid hpri
  · norm_num [schedule_processes, updateAll, updateProc, prune, alookup, aset, base_priority,
      pyInt, CPUScheduler.init, _fcfs, List.insertionSort, List.orderedInsert]

/-- Witness for the blend formula at a concrete tracked state: prior
priority 50 and a cpu sample of 50 give the tracked priority 65. -/
theorem known_pid_priority_blend_witness :
    alookup 1 (updateProc
      { CPUScheduler.init SchedulingAlgorithm.FCFS 0 with
          process_arrival_times := [(1, 0)]
          process_priorities := [(1, 50)]
          process_numbers := [(1, 1)]
          process_counter := 1 }
      1 { pid := some 1, cpu_percent := some 50 }).1.process_priorities = some 65 := by
  have h := known_pid_priority_blend.1
    { CPUScheduler.init SchedulingAlgorithm.FCFS 0 with
        process_arrival_times := [(1, 0)]
        process_priorities := [(1, 50)]
        process_numbers := [(1, 1)]
        process_counter := 1 }
    1 { pid := some 1, cpu_percent := some 50 } 1 50 rfl rfl
  rw [h]
  norm_num [base_priority, pyInt]

/-- C5 as stated is refuted on the code: the blend uses Python `int()`
(truncation), not rounding.  With prior priority 51 and a sample of cpu 50
the base is 100 and the code stores `int(0.7*51 + 0.3*100) = int(65.7) = 65`,
while the claim's formula `round(0.7*51 + 0.3*100)` gives 66. -/
theorem priority_blend_truncates_not_rounds :
    ((schedule_processes
      { CPUScheduler.init SchedulingAlgorithm.FCFS 0 with
          process_arrival_times := [(1, 0)]
          process_priorities := [(1, 51)]
          process_numbers := [(1, 1)]
          process_counter := 1 }
      1 [{ pid := some 1, cpu_percent := some 50 }]).2.map Proc.priority) = [some 65]
    ∧ round ((7/10 : ℚ) * 51 + (3/10 : ℚ) * 100) = 66
    ∧ (65 : Int) ≠ 66 := by
  refine ⟨?_, ?_, by decide⟩
  · norm_num [schedule_processes, updateAll, updateProc, prune, alookup, aset, base_priority,
      pyInt, CPUScheduler.init, _fcfs, List.insertionSort, List.orderedInsert]
  · rw [round_eq]
    norm_num

/-- Witness for the priority-range invariant at a concrete tracked state. -/
theorem tracked_priorities_stay_in_range_witness :
    1 ≤ (42 : Int) ∧ (42 : Int) ≤ 100 :=
  tracked_priorities_stay_in_range.2.2
    { CPUScheduler.init SchedulingAlgorithm.FCFS 0 with process_priorities := [(1, 42)] }
    1 42
    (by intro kv hkv; simp [CPUScheduler.init] at hkv; subst hkv; decide)
    rfl

lemma updateProc_snd_isSome (s : CPUScheduler) (t : ℚ) (p : Proc) :
    (updateProc s t p).2.arrival_time.isSome = true ∧
    (updateProc s t p).2.priority.isSome = true ∧
    (updateProc s t p).2.process_number.isSome = true := by
  unfold updateProc
  dsimp only
  rcases harr : alookup (p.pid.getD 0) s.process_arrival_times with _ | aval <;>
    simp only [harr] <;>
    rcases hpri : alookup (p.pid.getD 0) s.process_priorities with _ | old <;>
    simp only [hpri] <;>
    refine ⟨?_, ?_, rfl⟩ <;>
    simp [alookup_aset_self, harr]

lemma updateAll_snd_isSome (t : ℚ) (ps : List Proc) :
    ∀ (s : CPUScheduler) (p' : Proc), p' ∈ (updateAll t s ps).2 →
      p'.arrival_time.isSome = true ∧ p'.priority.isSome = true ∧
      p'.process_number.isSome = true := by
  induction ps with
  | nil => intro s p' h; simp [updateAll] at h
  | cons p rest ih =>
      intro s p' h
      simp only [updateAll] at h
      rcases List.mem_cons.mp h with h1 | h1
      · subst h1; exact updateProc_snd_isSome _ _ _
      · exact ih _ _ h1

/-- C10: `schedule_processes` is total on records with arbitrarily missing
fields — every field access in scheduler.py is a defaulted `get` lookup —
and still produces the annotated, ordered output: the result has the input's
length and every returned record carries the three annotations
`arrival_time`, `priority` and `process_number`. -/
theorem schedule_processes_total_on_partial_records :
    ∀ (s : CPUScheduler) (t : ℚ) (ps : List Proc),
      (schedule_processes s t ps).2.length = ps.length ∧
      ((schedule_processes s t ps).2.all fun p =>
        p.arrival_time.isSome && p.priority.isSome && p.process_number.isSome) = true := by
  intro s t ps
  have hperm := schedule_processes_perm s t ps
  constructor
  · have h1 := hperm.length_eq
    have h2 : ((updateAll t s ps).2.map coreFields).length = (ps.map coreFields).length := by
      rw [updateAll_snd_core]
    simpa using h1.trans (by simpa using h2)
  · by_cases he : ps.isEmpty
    · have : ps = [] := List.isEmpty_iff.mp he
      subst this
      rfl
    · rw [List.all_eq_true]
      intro p hp
      obtain ⟨h1, h2, h3⟩ := updateAll_snd_isSome t ps s p (hperm.mem_iff.mp hp)
      simp [h1, h2, h3]

lemma alookup_aset_ne {α : Type} {k k' : Nat} (h : k' ≠ k) (v : α) :
    ∀ l : List (Nat × α), alookup k (aset k' v l) = alookup k l := by
  intro l
  induction l with
  | nil => simp [aset, alookup, h]
  | cons kv rest ih =>
      unfold aset
      by_cases h2 : kv.1 = k'
      · rw [if_pos h2]
        unfold alookup
        dsimp only
        rw [if_neg h, if_neg (h2 ▸ h)]
      · rw [if_neg h2]
        unfold alookup
        by_cases h3 : kv.1 = k
        · rw [if_pos h3, if_pos h3]
        · rw [if_neg h3, if_neg h3]
          exact ih

lemma alookup_filter_not_contains {α : Type} {k : Nat} {pids : List Nat}
    (h : pids.contains k = false) :
    ∀ l : List (Nat × α), alookup k (l.filter (fun kv => pids.contains kv.1)) = none := by
  intro l
  induction l with
  | nil => rfl
  | cons kv rest ih =>
      by_cases hf : pids.contains kv.1
      · rw [List.filter_cons, if_pos hf]
        unfold alookup
        have hk : kv.1 ≠ k := fun he => by rw [he, h] at hf; cases hf
        rw [if_neg hk]
        exact ih
      · rw [List.filter_cons, if_neg hf]
        exact ih

lemma alookup_filter_contains {α : Type} {k : Nat} {pids : List Nat}
    (h : pids.contains k = true) :
    ∀ l : List (Nat × α), alookup k (l.filter (fun kv => pids.contains kv.1)) = alookup k l := by
  intro l
  induction l with
  | nil => rfl
  | cons kv rest ih =>
      by_cases hk : kv.1 = k
      · subst hk
        rw [List.filter_cons, if_pos h]
        unfold alookup
        rw [if_pos rfl, if_pos rfl]
      · by_cases hf : pids.contains kv.1
        · rw [List.filter_cons, if_pos hf]
          unfold alookup
          rw [if_neg hk, if_neg hk]
          exact ih
        · rw [List.filter_cons, if_neg hf]
          have hskip : alookup k (kv :: rest) = alookup k rest := by
            unfold alookup
            rw [if_neg hk]
            cases rest <;> rfl
          rw [hskip]
          exact ih

lemma updateProc_tracked_stable {s : CPUScheduler} {pid : Nat} {a : ℚ} {m : Nat} (t : ℚ)
    (p : Proc)
    (ha : alookup pid s.process_arrival_times = some a)
    (hm : alookup pid s.process_numbers = some m) :
    alookup pid (updateProc s t p).1.process_arrival_times = some a ∧
    alookup pid (updateProc s t p).1.process_numbers = some m := by
  unfold updateProc
  dsimp only
  by_cases hp : p.pid.getD 0 = pid
  · rw [hp, ha]
    dsimp only
    rcases hpri : alookup pid s.process_priorities with _ | old <;>
      simp only [hpri] <;> exact ⟨ha, hm⟩
  · rcases harr : alookup (p.pid.getD 0) s.process_arrival_times with _ | aval <;>
      simp only [harr] <;>
      rcases hpri : alookup (p.pid.getD 0) s.process_priorities with _ | old <;>
      simp only [hpri] <;>
      first
        | exact ⟨ha, hm⟩
        | exact ⟨by rw [alookup_aset_ne hp]; exact ha, by rw [alookup_aset_ne hp]; exact hm⟩

lemma updateProc_other_arrival_none {s : CPUScheduler} {pid : Nat} (t : ℚ) (p : Proc)
    (hp : p.pid.getD 0 ≠ pid)
    (ha : alookup pid s.process_arrival_times = none) :
    alookup pid (updateProc s t p).1.process_arrival_times = none := by
  unfold updateProc
  dsimp only
  rcases harr : alookup (p.pid.getD 0) s.process_arrival_times with _ | aval <;>
    simp only [harr] <;>
    rcases hpri : alookup (p.pid.getD 0) s.process_priorities with _ | old <;>
    simp only [hpri] <;>
    first
      | exact ha
      | (rw [alookup_aset_ne hp]; exact ha)

lemma updateProc_insert {s : CPUScheduler} {pid : Nat} (t : ℚ) (p : Proc)
    (hp : p.pid.getD 0 = pid)
    (ha : alookup pid s.process_arrival_times = none) :
    alookup pid (updateProc s t p).1.process_arrival_times = some (t - s.start_time) ∧
    alookup pid (updateProc s t p).1.process_numbers = some (s.process_counter + 1) := by
  unfold updateProc
  dsimp only
  subst hp
  simp only [ha]
  rcases hpri : alookup (p.pid.getD 0) s.process_priorities with _ | old <;>
    simp only [hpri] <;>
    exact ⟨alookup_aset_self _ _ _, alookup_aset_self _ _ _⟩

/-- The data-model invariant on the numbering dict: every assigned sequence
number is at most the engine-wide counter. -/
def numInv (s : CPUScheduler) : Prop :=
  ∀ kv ∈ s.process_numbers, kv.2 ≤ s.process_counter

lemma updateProc_numInv {s : CPUScheduler} (t : ℚ) (p : Proc) (h : numInv s) :
    numInv (updateProc s t p).1 := by
  unfold updateProc
  dsimp only
  rcases harr : alookup (p.pid.getD 0) s.process_arrival_times with _ | aval <;>
    simp only [harr] <;>
    rcases hpri : alookup (p.pid.getD 0) s.process_priorities with _ | old <;>
    simp only [hpri] <;>
    intro kv hkv <;> (try dsimp only at hkv)
  all_goals
    first
      | exact h _ hkv
      | (rcases mem_aset hkv with rfl | h2
         exacts [le_refl _, le_trans (h _ h2) (Nat.le_succ _)])

lemma updateAll_tracked_stable (t : ℚ) (ps : List Proc) :
    ∀ (s : CPUScheduler) {pid : Nat} {a : ℚ} {m : Nat},
      alookup pid s.process_arrival_times = some a →
      alookup pid s.process_numbers = some m →
      alookup pid (updateAll t s ps).1.process_arrival_times = some a ∧
      alookup pid (updateAll t s ps).1.process_numbers = some m := by
  induction ps with
  | nil => intro s pid a m ha hm; exact ⟨ha, hm⟩
  | cons p rest ih =>
      intro s pid a m ha hm
      simp only [updateAll]
      obtain ⟨ha2, hm2⟩ := updateProc_tracked_stable t p ha hm
      exact ih _ ha2 hm2

lemma updateAll_fresh (t : ℚ) (ps : List Proc) :
    ∀ (s : CPUScheduler) {pid : Nat} {p : Proc},
      p ∈ ps → p.pid.getD 0 = pid →
      alookup pid s.process_arrival_times = none →
      alookup pid (updateAll t s ps).1.process_arrival_times = some (t - s.start_time) ∧
      ∃ m, alookup pid (updateAll t s ps).1.process_numbers = some m ∧
        s.process_counter < m := by
  induction ps with
  | nil => intro s pid p hp; cases hp
  | cons q rest ih =>
      intro s pid p hp hpid ha
      simp only [updateAll]
      by_cases hq : q.pid.getD 0 = pid
      · obtain ⟨h1, h2⟩ := updateProc_insert t q hq ha
        obtain ⟨g1, g2⟩ := updateAll_tracked_stable t rest _ h1 h2
        exact ⟨g1, s.process_counter + 1, g2, Nat.lt_succ_self _⟩
      · have hp2 : p ∈ rest := by
          rcases List.mem_cons.mp hp with h1 | h1
          · exact absurd (h1 ▸ hpid) hq
          · exact h1
        have ha2 := updateProc_other_arrival_none t q hq ha
        obtain ⟨g1, m, g2, hlt⟩ := ih _ hp2 hpid ha2
        obtain ⟨-, -, -, hst, hcnt⟩ := updateProc_fst_config s t q
        refine ⟨by rw [g1, hst], m, g2, lt_of_le_of_lt hcnt hlt⟩

lemma updateAll_numInv (t : ℚ) (ps : List Proc) :
    ∀ s : CPUScheduler, numInv s → numInv (updateAll t s ps).1 := by
  induction ps with
  | nil => intro s h; exact h
  | cons p rest ih =>
      intro s h
      simp only [updateAll]
      exact ih _ (updateProc_numInv t p h)

lemma schedule_processes_numInv {s : CPUScheduler} (t : ℚ) (ps : List Proc) (h : numInv s) :
    numInv (schedule_processes s t ps).1 := by
  unfold schedule_processes
  by_cases he : ps.isEmpty
  · rw [if_pos he]; exact h
  · rw [if_neg (by simp [he])]
    intro kv hkv
    exact updateAll_numInv t ps s h _ (List.mem_of_mem_filter hkv)

lemma schedule_processes_wipes_absent {s : CPUScheduler} {t : ℚ} {ps : List Proc} {pid : Nat}
    (hne : ps ≠ []) (habs : pid ∉ ps.map (fun p => p.pid.getD 0)) :
    alookup pid (schedule_processes s t ps).1.process_arrival_times = none ∧
    alookup pid (schedule_processes s t ps).1.process_priorities = none ∧
    alookup pid (schedule_processes s t ps).1.process_numbers = none := by
  unfold schedule_processes
  rw [if_neg (by simp [hne])]
  have hc : (ps.map (fun p => p.pid.getD 0)).contains pid = false := by
    simpa using habs
  exact ⟨alookup_filter_not_contains hc _, alookup_filter_not_contains hc _,
    alookup_filter_not_contains hc _⟩

lemma schedule_processes_fresh {s : CPUScheduler} {t : ℚ} {ps : List Proc} {pid : Nat} {p : Proc}
    (hp : p ∈ ps) (hpid : p.pid.getD 0 = pid)
    (ha : alookup pid s.process_arrival_times = none) :
    alookup pid (schedule_processes s t ps).1.process_arrival_times = some (t - s.start_time) ∧
    ∃ m, alookup pid (schedule_processes s t ps).1.process_numbers = some m ∧
      s.process_counter < m := by
  have hne : ps ≠ [] := by intro h; subst h; cases hp
  unfold schedule_processes
  rw [if_neg (by simp [hne])]
  have hc : (ps.map (fun p => p.pid.getD 0)).contains pid = true := by
    simpa using List.mem_map.mpr ⟨p, hp, hpid⟩
  obtain ⟨g1, m, g2, hlt⟩ := updateAll_fresh t ps s hp hpid ha
  dsimp only [prune]
  rw [alookup_filter_contains hc, alookup_filter_contains hc]
  exact ⟨g1, m, g2, hlt⟩

/-- C7 amended: a pid absent from a later non-empty batch loses all tracked
state (arrival time, priority, sequence number), the counter never
decreases, the numbering invariant holds, and a pid re-appearing after such
an absence is treated as new: it gets arrival time `now - start` and a
sequence number strictly greater than the counter, hence strictly greater
than every previously assigned number.  The amendment restricts the claim's
"absent from a later batch" to non-empty batches: `schedule_processes`
returns before pruning on an empty batch, so an empty batch deletes
nothing. -/
theorem reappearing_pid_gets_fresh_state :
    (∀ (s : CPUScheduler) (t : ℚ) (ps : List Proc) (pid : Nat), ps ≠ [] →
        pid ∉ ps.map (fun p => p.pid.getD 0) →
        alookup pid (schedule_processes s t ps).1.process_arrival_times = none ∧
        alookup pid (schedule_processes s t ps).1.process_priorities = none ∧
        alookup pid (schedule_processes s t ps).1.process_numbers = none)
    ∧ (∀ (s : CPUScheduler) (t : ℚ) (ps : List Proc),
        s.process_counter ≤ (schedule_processes s t ps).1.process_counter)
    ∧ (∀ (a : SchedulingAlgorithm) (st : ℚ), numInv (CPUScheduler.init a st))
    ∧ (∀ (s : CPUScheduler) (t : ℚ) (ps : List Proc),
        numInv s → numInv (schedule_processes s t ps).1)
    ∧ ∀ (s : CPUScheduler) (t : ℚ) (ps : List Proc) (pid : Nat) (p : Proc),
        p ∈ ps → p.pid.getD 0 = pid →
        alookup pid s.process_arrival_times = none → numInv s →
        alookup pid (schedule_processes s t ps).1.process_arrival_times =
          some (t - s.start_time) ∧
        ∃ m, alookup pid (schedule_processes s t ps).1.process_numbers = some m ∧
          s.process_counter < m ∧
          ∀ (k n : Nat), alookup k s.process_numbers = some n → n < m := by
  refine ⟨fun s t ps pid hne habs => schedule_processes_wipes_absent hne habs,
    fun s t ps => (schedule_processes_fst_config s t ps).2.2.2.2,
    fun a st kv hkv => by simp [CPUScheduler.init] at hkv,
    fun s t ps h => schedule_processes_numInv t ps h,
    fun s t ps pid p hp hpid ha hinv => ?_⟩
  obtain ⟨g1, m, g2, hlt⟩ := schedule_processes_fresh hp hpid ha
  exact ⟨g1, m, g2, hlt, fun k n hn => lt_of_le_of_lt (hinv _ (alookup_mem hn)) hlt⟩

/-- C7 as stated is refuted by the empty-batch early return: a pid seen in
batch 1, absent from the empty batch 2, and seen again in batch 3 keeps its
old sequence number (1, not a fresh strictly-greater one) and its old
arrival time (1, not 3), because `schedule_processes` returns before pruning
when the batch is empty. -/
theorem empty_batch_keeps_tracker_state :
    let s0 := CPUScheduler.init SchedulingAlgorithm.FCFS 0
    let r1 := schedule_processes s0 1 [{ pid := some 1 }]
    let r2 := schedule_processes r1.1 2 []
    let r3 := schedule_processes r2.1 3 [{ pid := some 1 }]
    r1.2.map Proc.process_number = [some 1] ∧
    r2 = (r1.1, []) ∧
    r3.2.map Proc.process_number = [some 1] ∧
    r3.2.map Proc.arrival_time = [some 1] ∧
    r3.2.map Proc.arrival_time ≠ [some 3] := by
  refine ⟨?_, rfl, ?_, ?_, ?_⟩ <;>
    norm_num [schedule_processes, updateAll, updateProc, prune, alookup, aset, base_priority,
      pyInt, CPUScheduler.init, _fcfs, List.insertionSort, List.orderedInsert]

lemma psutilLoop_empty_visible (mc : Nat) :
    ∀ (hps : List HostProc) (acc : List BRec),
      psutilLoop true (some ([] : List Nat)) mc hps acc = acc := by
  intro hps
  induction hps with
  | nil => intro acc; rfl
  | cons hp rest ih =>
      intro acc
      unfold psutilLoop
      by_cases hok : hp.ok = false
      · rw [if_pos hok]
        exact ih acc
      · rw [if_neg hok]
        dsimp only
        rw [if_pos (by simp)]
        exact ih acc

/-- C3 is refuted by the code: when the visible-apps filter is requested on
Windows and the window-ownership query fails, `_get_visible_window_pids`
returns the empty set rather than `None`; the caller's `is not None` test
then treats the empty set as a valid filter, every enumerated pid fails the
membership test, and the acquisition returns the empty list — not every
enumerated process.  This contradicts the fallback comment in
`_get_visible_window_pids` itself ("return empty set so we fall back to
returning all processes"). -/
theorem failed_window_query_empties_result :
    ∀ (vp : List Nat) (hps : List HostProc) (tok : Bool) (rows : List TasklistRow) (mc : Nat),
      acquireProcs
        { is_windows := true, psutil := true, enum_ok := true, winquery_ok := false,
          visible_pids := vp, host_procs := hps, tasklist_ok := tok, tasklist_rows := rows }
        mc true = [] := by
  intro vp hps tok rows mc
  unfold acquireProcs _get_visible_window_pids
  simp only [Bool.and_self, if_true, Bool.not_true, Bool.false_eq_true, if_false]
  rw [psutilLoop_empty_visible]
  rfl

lemma fallback_record_fields (mc : Nat) (ao : Bool) (host : HostEnv) :
    ((_get_processes_fallback mc ao host).all
      fun r => (r.cpu_percent == 0) && (r.exe == none)) = true := by
  unfold _get_processes_fallback
  dsimp only
  split
  · split
    · rw [List.all_eq_true]
      intro r hr
      obtain ⟨row, hrow, hf⟩ := List.mem_filterMap.mp hr
      rcases hpid : row.pid with _ | pid <;> rw [hpid] at hf
      · cases hf
      · dsimp only at hf
        rcases ite_eq_iff.mp hf with ⟨-, h1⟩ | ⟨-, h1⟩
        · cases h1
        · injection h1 with h1
          subst h1
          rfl
    · rfl
  · rfl

/-- C4 corrected: a total enumeration failure never raises — `list_processes`
returns the `_get_processes_fallback` result — and every fallback record
carries `cpu_percent = 0` and no `exe` key; but the memory field is parsed
from the tasklist output, not zeroed: it is `round(mem_k/1024, 1)`, zero
only when the memory column cannot be parsed. -/
theorem enumeration_failure_degrades_to_fallback :
    (∀ (st : BackendState) (t : ℚ) (mc : Nat) (ao : Bool) (host : HostEnv),
        host.psutil = true → host.enum_ok = false →
        cacheValid st t mc ao = false →
        (list_processes st t mc ao host).2 = _get_processes_fallback mc ao host)
    ∧ ∀ (mc : Nat) (ao : Bool) (host : HostEnv),
        ((_get_processes_fallback mc ao host).all
          fun r => (r.cpu_percent == 0) && (r.exe == none)) = true := by
  refine ⟨fun st t mc ao host hps hen hcv => ?_, fallback_record_fields⟩
  unfold list_processes
  rw [if_neg (by simp [hcv])]
  unfold acquireProcs
  rw [hps, hen]
  rfl

lemma pyRound1_zero : pyRound1 0 = 0 := by
  unfold pyRound1 pyRoundInt
  norm_num

lemma pyRound1_two : pyRound1 2 = 2 := by
  unfold pyRound1 pyRoundInt
  norm_num

lemma pyRound1_fifty : pyRound1 50 = 50 := by
  unfold pyRound1 pyRoundInt
  norm_num

/-- C4's "zero memory" part is refuted at a concrete input: with psutil
enumeration failing and one tasklist row whose memory column parses to
2048 K, the fallback record's memory_mb is 2, not 0. -/
theorem fallback_memory_not_zero :
    (list_processes {} 0 150 false
      { is_windows := true, psutil := true, enum_ok := false, winquery_ok := true,
        visible_pids := [], host_procs := [],
        tasklist_ok := true,
        tasklist_rows := [{ name := "app.exe", pid := some 5, memK := some 2048 }] }).2.map
      BRec.memory_mb = [2]
    ∧ (2 : ℚ) ≠ 0 := by
  constructor
  · norm_num [list_processes, cacheValid, acquireProcs, _get_processes_fallback,
      _get_visible_window_pids, CACHE_DURATION, List.filterMap_cons,
      show ((2048 : ℚ)/1024 = 2) by norm_num, pyRound1_two]
  · norm_num

lemma list_processes_hit {st : BackendState} {t : ℚ} {mc : Nat} {ao : Bool} (host : HostEnv)
    (h : cacheValid st t mc ao = true) :
    list_processes st t mc ao host =
      (st, (st.process_cache.map ProcessCache.processes).getD []) := by
  unfold list_processes
  rw [if_pos h]

lemma list_processes_miss {st : BackendState} {t : ℚ} {mc : Nat} {ao : Bool} (host : HostEnv)
    (h : cacheValid st t mc ao = false) :
    list_processes st t mc ao host =
      (⟨some ⟨acquireProcs host mc ao, mc, ao⟩, t⟩, acquireProcs host mc ao) := by
  unfold list_processes
  rw [if_neg (by simp [h])]

lemma list_processes_cache_shape (st : BackendState) (t : ℚ) (mc : Nat) (ao : Bool)
    (host : HostEnv) :
    (list_processes st t mc ao host).1.process_cache =
      some { processes := (list_processes st t mc ao host).2, max_count := mc,
             apps_only := ao } ∧
    (list_processes st t mc ao host).2 =
      ((list_processes st t mc ao host).1.process_cache.map ProcessCache.processes).getD [] := by
  by_cases h : cacheValid st t mc ao
  · rw [list_processes_hit host h]
    unfold cacheValid at h
    rcases hc : st.process_cache with _ | c
    · rw [hc] at h
      simp at h
    · rw [hc] at h
      simp only [Bool.and_eq_true, beq_iff_eq] at h
      obtain ⟨-, h1, h2⟩ := h
      obtain ⟨procs, cmc, cao⟩ := c
      dsimp only at h1 h2 ⊢
      subst h1
      subst h2
      exact ⟨by simp, rfl⟩
  · rw [list_processes_miss host (by simpa using h)]
    exact ⟨rfl, rfl⟩

/-- C8: after any `list_processes` call, a second call inside the cache
validity window with the same `max_count` and `apps_only` arguments returns
exactly the first call's result and leaves the state untouched, whatever the
host state of the second call; with different parameters or outside the
window the cache test fails, and a failed cache test runs and returns a
fresh acquisition. -/
theorem cached_call_returns_previous_result :
    ∀ (st : BackendState) (t1 : ℚ) (mc : Nat) (ao : Bool) (host1 : HostEnv),
      (∀ (t2 : ℚ) (host2 : HostEnv),
          t2 - (list_processes st t1 mc ao host1).1.cache_timestamp < CACHE_DURATION →
          list_processes (list_processes st t1 mc ao host1).1 t2 mc ao host2 =
            ((list_processes st t1 mc ao host1).1, (list_processes st t1 mc ao host1).2))
      ∧ (∀ (t2 : ℚ) (mc2 : Nat) (ao2 : Bool),
          (mc2 ≠ mc ∨ ao2 ≠ ao ∨
              ¬(t2 - (list_processes st t1 mc ao host1).1.cache_timestamp < CACHE_DURATION)) →
          cacheValid (list_processes st t1 mc ao host1).1 t2 mc2 ao2 = false)
      ∧ ∀ (st' : BackendState) (t2 : ℚ) (mc2 : Nat) (ao2 : Bool) (host2 : HostEnv),
          cacheValid st' t2 mc2 ao2 = false →
          (list_processes st' t2 mc2 ao2 host2).2 = acquireProcs host2 mc2 ao2 := by
  intro st t1 mc ao host1
  obtain ⟨hshape, hret⟩ := list_processes_cache_shape st t1 mc ao host1
  refine ⟨fun t2 host2 hwin => ?_, fun t2 mc2 ao2 hmis => ?_,
    fun st' t2 mc2 ao2 host2 hcv => ?_⟩
  · have hvalid : cacheValid (list_processes st t1 mc ao host1).1 t2 mc ao = true := by
      unfold cacheValid
      rw [hshape]
      simp [hwin]
    rw [list_processes_hit host2 hvalid, ← hret]
  · unfold cacheValid
    rw [hshape]
    rcases hmis with h | h | h
    · simp [Ne.symm h]
    · simp [Ne.symm h]
    · simp [h]
  · rw [list_processes_miss host2 hcv]

lemma updateAllRefs_store_length (t : ℚ) (ids : List Nat) :
    ∀ (s : CPUScheduler) (store : Store),
      (updateAllRefs t s store ids).2.length = store.length := by
  induction ids with
  | nil => intro s store; rfl
  | cons i rest ih =>
      intro s store
      simp only [updateAllRefs]
      rw [ih]
      simp [writeRec]

lemma perm_orderRefs (alg : SchedulingAlgorithm) (ct q : Nat) (store : Store) (ids : List Nat) :
    List.Perm (orderRefs alg ct q store ids) ids := by
  unfold orderRefs
  cases alg
  · exact List.perm_insertionSort _ _
  · exact List.perm_insertionSort _ _
  · exact List.perm_insertionSort _ _
  · by_cases h : ids.isEmpty
    · simp [h]
    · simp only [h, Bool.false_eq_true, if_false]
      exact (List.perm_insertionSort _ _).trans (perm_drop_take _ _)
  · have hcompl : (fun i : Nat => decide ((readRec store i).cpu_percent.getD 0 ≤ 5)) =
        (fun i : Nat => !(decide ((readRec store i).cpu_percent.getD 0 > 5))) := by
      funext i
      rw [← decide_not]
      exact decide_eq_decide.mpr not_lt.symm
    have hfilter :
        List.Perm
          (ids.filter (fun i => decide ((readRec store i).cpu_percent.getD 0 > 5)) ++
            ids.filter (fun i => decide ((readRec store i).cpu_percent.getD 0 ≤ 5))) ids := by
      rw [hcompl]
      exact List.filter_append_perm _ ids
    exact (List.Perm.append (List.perm_insertionSort _ _)
      (List.perm_insertionSort _ _)).trans hfilter

/-- C9 amended: the batches handed out are built from the very record
objects the core keeps mutating, not copies: `schedule_processes` annotates
the input records in place (the store keeps its length — no record is
copied — and the returned list is a permutation of the input record ids),
and a `list_processes` cache hit returns the cached id list itself while
allocating nothing; a consumer holding a returned batch therefore observes
the core's subsequent annotations. -/
theorem schedule_and_cache_alias_records :
    (∀ (s : CPUScheduler) (t : ℚ) (store : Store) (ids : List Nat),
        List.Perm (schedule_processes_refs s t store ids).2.2 ids ∧
        (schedule_processes_refs s t store ids).2.1.length = store.length)
    ∧ ∀ (st : BackendRefsState) (store : Store) (t : ℚ) (mc : Nat) (ao : Bool) (host : HostEnv),
        cacheValidRefs st t mc ao = true →
        list_processes_refs st store t mc ao host =
          (st, store, (st.process_cache.map ProcessCacheRefs.processes).getD []) := by
  constructor
  · intro s t store ids
    unfold schedule_processes_refs
    by_cases h : ids.isEmpty
    · rw [if_pos h]
      exact ⟨List.Perm.refl _, rfl⟩
    · rw [if_neg (by simp [h])]
      exact ⟨perm_orderRefs _ _ _ _ _, updateAllRefs_store_length t ids s store⟩
  · intro st store t mc ao host h
    unfold list_processes_refs
    rw [if_pos h]

/-- C9 as stated is refuted at a concrete input: the consumer's batch from
the first `list_processes` call is the same record object (id 0) the cache
stores and the second (cache-hit) call hands out again; when the core then
runs `schedule_processes` over that batch, the record the consumer holds
changes under it (its priority key appears), so the returned batches are
aliases of mutable core state, not immutable copies. -/
theorem consumer_observes_core_mutation :
    let host : HostEnv :=
      { is_windows := false, psutil := true, enum_ok := true, winquery_ok := true,
        visible_pids := [], tasklist_ok := true, tasklist_rows := [],
        host_procs := [{ ok := true, pid := some 1, name := some "a", exe := none,
                         rss_bytes := none, cpu_percent := some 50 }] }
    let r1 := list_processes_refs {} [] 0 150 true host
    let r2 := list_processes_refs r1.1 r1.2.1 (1/2) 150 true host
    let sched := schedule_processes_refs (CPUScheduler.init SchedulingAlgorithm.FCFS 0) 1
      r2.2.1 r2.2.2
    r2.2.2 = r1.2.2 ∧
    (r1.2.2.map fun i => (readRec r1.2.1 i).priority) = [none] ∧
    (r1.2.2.map fun i => (readRec sched.2.1 i).priority) = [some 100] ∧
    (r1.2.2.map (readRec r1.2.1)) ≠ (r1.2.2.map (readRec sched.2.1)) := by
  refine ⟨?_, ?_, ?_, ?_⟩ <;>
    norm_num [list_processes_refs, cacheValidRefs, acquireProcs, psutilLoop, sortByCpuMem,
      _get_visible_window_pids, toProc, readRec, writeRec, schedule_processes_refs,
      updateAllRefs, updateProc, prune, alookup, aset, base_priority, pyInt, orderRefs,
      CPUScheduler.init, CACHE_DURATION, List.insertionSort, List.orderedInsert,
      List.range_succ, pyRound1_zero, pyRound1_fifty]
  intro h
  cases h
